import Mathlib

/-!
Verification of go-orders-api: order service, repository, queue and worker

A shallow embedding of

* `internal/model/order.go`           (the `Order` record and the status constants),
* `internal/repository/order_repository.go` (the `OrderRepository` interface and the
  SQL-backed `PostgresOrderRepository`),
* `internal/worker/queue.go`          (`Enqueuer`, `ChannelEnqueuer.Enqueue`),
* `internal/worker/worker.go`         (`Processor`, `OrderWorker.Run`),
* `internal/service/order_service.go` (`CreateOrder`, `GetOrder`, `ListOrders`,
  `ProcessOrder`).

Conventions.

* A Go method with side effects on some state becomes a function
  `W → result × W`; Go's `(T, error)` becomes `T × Option Err`, a `nil` error is `none`.
* Go's `int` is `Int`: the code only compares these values, there is no arithmetic on them.
* `time.Time` is an `Int` instant, a `time.Duration` a `Nat`.
* A `context.Context` is the value of `ctx.Err()`: `none` while the context is live,
  `some cause` once it is cancelled.
* Values produced outside the program (`uuid.NewString()`, `time.Now()`, which ready case a
  `select` takes, whether a database round trip fails) are explicit arguments or oracles.
-/

namespace OrdersApi

/-! ## Errors -/

/-- Go `error` values: a sentinel made by `errors.New`, or `fmt.Errorf("msg: %w", inner)`. -/
inductive Err where
  | sentinel (name : String)
  | wrap (msg : String) (inner : Err)
deriving DecidableEq, Repr

/-- The test `errors.Is(err, target)`: `err` or an error in its `Unwrap` chain is `target`. -/
def Err.is : Err → Err → Bool
  | .sentinel n, t => decide (Err.sentinel n = t)
  | .wrap m inner, t => decide (Err.wrap m inner = t) || inner.is t

/-- Modelled from the spec: package `apperr` is not among the sources; `ErrValidation` is the
sentinel the spec calls `ValidationError`. -/
def ErrValidation : Err := .sentinel "validation error"

/-- Modelled from the spec: package `apperr` is not among the sources; `ErrNotFound` is the
sentinel the spec calls `NotFound`. -/
def ErrNotFound : Err := .sentinel "not found"

/-- The standard library's `sql.ErrNoRows`. -/
def ErrNoRows : Err := .sentinel "sql: no rows in result set"

/-- The standard library's `context.Canceled`. -/
def Canceled : Err := .sentinel "context canceled"

/-- The standard library's `context.DeadlineExceeded`. -/
def DeadlineExceeded : Err := .sentinel "context deadline exceeded"

/-- A context, seen through `ctx.Err()`. -/
abbrev Ctx := Option Err

/-! ## model/order.go -/

def StatusCreated : String := "created"
def StatusProcessing : String := "processing"
def StatusCompleted : String := "completed"

structure Order where
  ID : String
  CustomerName : String
  Amount : Int
  Status : String
  CreatedAt : Int
deriving DecidableEq, Repr

/-- The zero value `model.Order{}`. -/
def Order.zero : Order := ⟨"", "", 0, "", 0⟩

/-! ## strings.TrimSpace -/

/-- Go's `unicode.IsSpace`. -/
def isSpace (c : Char) : Bool :=
  let n := c.toNat
  n == 0x20 || (0x09 ≤ n && n ≤ 0x0D) || n == 0x85 || n == 0xA0 || n == 0x1680 ||
  (0x2000 ≤ n && n ≤ 0x200A) || n == 0x2028 || n == 0x2029 || n == 0x202F ||
  n == 0x205F || n == 0x3000

/-- Go's `strings.TrimSpace`: leading and trailing white space removed. -/
def TrimSpace (s : String) : String :=
  String.mk ((s.data.dropWhile isSpace).rdropWhile isSpace)

/-! ## repository/order_repository.go -/

/-- The interface `OrderRepository`, over a store state `W`. -/
structure OrderRepository (W : Type) where
  Create : Ctx → Order → W → Option Err × W
  GetByID : Ctx → String → W → (Order × Option Err) × W
  List : Ctx → Int → Int → W → (List Order × Option Err) × W
  Count : Ctx → W → (Int × Option Err) × W
  UpdateStatus : Ctx → String → String → W → Option Err × W

/-- What can go wrong in one call of the SQL driver: the statement or query itself
(`ExecContext`, `QueryContext`, `QueryRowContext(..).Scan`), the scan of a row of a result set,
the iteration of a result set (`rows.Err()`), or `res.RowsAffected()`.  A failed statement has
no effect on the table. -/
inductive Fault where
  | exec (e : Err)
  | scan (e : Err)
  | iter (e : Err)
  | affected (e : Err)
deriving DecidableEq, Repr

/-- The database behind `PostgresOrderRepository`: the rows of table `orders`, the number of
driver calls made so far, and the oracle telling which driver calls fail (timeouts of the
per-call context included). -/
structure DB where
  rows : List Order
  tick : Nat
  faults : Nat → Option Fault

/-- The fault, if any, of the driver call being made. -/
def DB.fault (db : DB) : Option Fault := db.faults db.tick

/-- The database after a driver call that left the table as `rows`. -/
def DB.next (db : DB) (rows : List Order) : DB :=
  { rows := rows, tick := db.tick + 1, faults := db.faults }

namespace PostgresOrderRepository

/-- Method `Create`: `INSERT INTO orders (id, customer_name, amount, status, created_at) VALUES (...)`. -/
def Create (_ctx : Ctx) (order : Order) (db : DB) : Option Err × DB :=
  match db.fault with
  | some (.exec err) => (some (.wrap ("insert order id=" ++ order.ID) err), db.next db.rows)
  | _ => (none, db.next (db.rows ++ [order]))

/-- Method `GetByID`: `SELECT ... FROM orders WHERE id = $1`, scanned with `QueryRowContext(..).Scan`. -/
def GetByID (_ctx : Ctx) (id : String) (db : DB) : (Order × Option Err) × DB :=
  let res : Order × Option Err :=
    match db.fault with
    | some (.exec err) => (Order.zero, some err)
    | _ =>
      match db.rows.find? (fun o => o.ID == id) with
      | some o => (o, none)
      | none => (Order.zero, some ErrNoRows)
  match res with
  | (_, some err) =>
    if err.is ErrNoRows then
      ((Order.zero, some (.wrap ("order id=" ++ id) ErrNotFound)), db.next db.rows)
    else
      ((Order.zero, some (.wrap ("get order id=" ++ id) err)), db.next db.rows)
  | (order, none) => ((order, none), db.next db.rows)

/-- Method `Count`: `SELECT COUNT(*) FROM orders`. -/
def Count (_ctx : Ctx) (db : DB) : (Int × Option Err) × DB :=
  match db.fault with
  | some (.exec err) => ((0, some (.wrap "count orders" err)), db.next db.rows)
  | _ => ((db.rows.length, none), db.next db.rows)

/-- The rows after `UPDATE orders SET status = $2 WHERE id = $1`. -/
def setStatus (id status : String) (rows : List Order) : List Order :=
  rows.map (fun o => if o.ID == id then { o with Status := status } else o)

/-- The rows the `UPDATE` affects: those with `id = $1`. -/
def rowsAffected (id : String) (rows : List Order) : Nat :=
  (rows.filter (fun o => o.ID == id)).length

/-- Method `UpdateStatus`: `UPDATE orders SET status = $2 WHERE id = $1`, then the `RowsAffected` check. -/
def UpdateStatus (_ctx : Ctx) (id status : String) (db : DB) : Option Err × DB :=
  match db.fault with
  | some (.exec err) =>
    (some (.wrap ("update order status id=" ++ id ++ " status=" ++ status) err),
      db.next db.rows)
  | some (.affected err) =>
    (some (.wrap ("rows affected id=" ++ id) err), db.next (setStatus id status db.rows))
  | _ =>
    if rowsAffected id db.rows = 0 then
      (some (.wrap ("order id=" ++ id) ErrNotFound), db.next (setStatus id status db.rows))
    else
      (none, db.next (setStatus id status db.rows))

/-- Method `List`: `SELECT ... FROM orders ORDER BY created_at DESC LIMIT $1 OFFSET $2`.  Rows with the same
`created_at` come in table order (SQL leaves their order open); a negative `LIMIT` or `OFFSET`
is a query error. -/
def List (_ctx : Ctx) (limit offset : Int) (db : DB) : (List Order × Option Err) × DB :=
  let pre := "list orders limit=" ++ toString limit ++ " offset=" ++ toString offset
  match db.fault with
  | some (.exec err) => (([], some (.wrap pre err)), db.next db.rows)
  | some (.scan err) => (([], some (.wrap "scan order row" err)), db.next db.rows)
  | some (.iter err) => (([], some (.wrap "iterate order rows" err)), db.next db.rows)
  | _ =>
    if limit < 0 ∨ offset < 0 then
      (([], some (.wrap pre (.sentinel "pq: LIMIT and OFFSET must not be negative"))),
        db.next db.rows)
    else
      ((((db.rows.insertionSort (fun a b => b.CreatedAt ≤ a.CreatedAt)).drop
          offset.toNat).take limit.toNat, none), db.next db.rows)

end PostgresOrderRepository

/-- The value `*PostgresOrderRepository` as an `OrderRepository`. -/
def NewPostgresOrderRepository : OrderRepository DB where
  Create := PostgresOrderRepository.Create
  GetByID := PostgresOrderRepository.GetByID
  List := PostgresOrderRepository.List
  Count := PostgresOrderRepository.Count
  UpdateStatus := PostgresOrderRepository.UpdateStatus

/-! ## worker/queue.go -/

/-- How a call that may wait ends: it returns, it waits (no case of its `select` is ready), or
it panics (a send on a closed channel). -/
inductive Outcome (α : Type) where
  | ret (a : α)
  | blocked
  | panicked
deriving DecidableEq, Repr

/-- The outcome of what follows a call that may wait. -/
def Outcome.map {α β : Type} (f : α → β) : Outcome α → Outcome β
  | .ret a => .ret (f a)
  | .blocked => .blocked
  | .panicked => .panicked

/-- The interface `Enqueuer`, over a queue state `W`.  A call may wait or panic, as the
channel send of `ChannelEnqueuer` does. -/
structure Enqueuer (W : Type) where
  Enqueue : Ctx → String → W → Outcome (Option Err × W)

/-- A buffered `chan string`: the buffered values, oldest first, the capacity given to `make`,
and whether `close` has been called. -/
structure Chan where
  buf : List String
  cap : Nat
  closed : Bool
deriving DecidableEq, Repr

/-- Method `ChannelEnqueuer.Enqueue`: a `select` between the send `e.Ch <- orderID` and `<-ctx.Done()`.
The send is ready when the buffer has room (or the channel is closed, and then it panics); the
other case is ready when the context is cancelled.  When both are ready Go takes either one:
`pickSend` says whether it is the send. -/
def ChannelEnqueuer.Enqueue (pickSend : Bool) (ctx : Ctx) (orderID : String) (ch : Chan) :
    Outcome (Option Err × Chan) :=
  let sendReady := ch.closed || decide (ch.buf.length < ch.cap)
  match ctx with
  | none =>
    if sendReady then
      if ch.closed then .panicked else .ret (none, { ch with buf := ch.buf ++ [orderID] })
    else .blocked
  | some cause =>
    if sendReady && pickSend then
      if ch.closed then .panicked else .ret (none, { ch with buf := ch.buf ++ [orderID] })
    else .ret (some (.wrap ("enqueue order id=" ++ orderID) cause), ch)

/-! ## service/order_service.go -/

/-- The struct `OrderService`, over a state `W` that its collaborators act on.  `delayFn`
draws the duration of the simulated work, `sleepFn` waits that long or until the context is
cancelled; both are replaceable, as the tests do. -/
structure OrderService (W : Type) where
  repo : OrderRepository W
  queue : Enqueuer W
  delayFn : W → Nat × W
  sleepFn : Ctx → Nat → W → Option Err × W

namespace OrderService

variable {W : Type}

/-- Method `CreateOrder`.  `newID` is the value of `uuid.NewString()` and `now` that of
`time.Now().UTC()`.  The call ends the way its `Enqueue` ends. -/
def CreateOrder (s : OrderService W) (newID : String) (now : Int) (ctx : Ctx)
    (customerName : String) (amount : Int) (w : W) : Outcome ((Order × Option Err) × W) :=
  if TrimSpace customerName = "" then
    .ret ((Order.zero, some (.wrap "customer_name is required" ErrValidation)), w)
  else if amount ≤ 0 then
    .ret ((Order.zero, some (.wrap "amount must be greater than 0" ErrValidation)), w)
  else
    let order : Order :=
      { ID := newID
        CustomerName := TrimSpace customerName
        Amount := amount
        Status := StatusCreated
        CreatedAt := now }
    match s.repo.Create ctx order w with
    | (some err, w1) => .ret ((Order.zero, some (.wrap "create order" err)), w1)
    | (none, w1) =>
      match s.queue.Enqueue ctx order.ID w1 with
      | .ret (some err, w2) =>
        .ret ((Order.zero, some (.wrap ("enqueue order id=" ++ order.ID) err)), w2)
      | .ret (none, w2) => .ret ((order, none), w2)
      | .blocked => .blocked
      | .panicked => .panicked

/-- Method `GetOrder`. -/
def GetOrder (s : OrderService W) (ctx : Ctx) (id : String) (w : W) :
    (Order × Option Err) × W :=
  if TrimSpace id = "" then
    ((Order.zero, some (.wrap "id is required" ErrValidation)), w)
  else
    match s.repo.GetByID ctx id w with
    | ((_, some err), w1) => ((Order.zero, some (.wrap ("get order id=" ++ id) err)), w1)
    | ((order, none), w1) => ((order, none), w1)

/-- Method `ListOrders`; a `nil` slice is the empty list. -/
def ListOrders (s : OrderService W) (ctx : Ctx) (limit offset : Int) (w : W) :
    (List Order × Int × Option Err) × W :=
  if limit ≤ 0 ∨ limit > 100 then
    (([], 0, some (.wrap "limit must be 1..100" ErrValidation)), w)
  else if offset < 0 then
    (([], 0, some (.wrap "offset must be >= 0" ErrValidation)), w)
  else
    match s.repo.List ctx limit offset w with
    | ((_, some err), w1) => (([], 0, some (.wrap "list orders" err)), w1)
    | ((orders, none), w1) =>
      match s.repo.Count ctx w1 with
      | ((_, some err), w2) => (([], 0, some (.wrap "count orders" err)), w2)
      | ((total, none), w2) => ((orders, total, none), w2)

/-- Method `ProcessOrder`. -/
def ProcessOrder (s : OrderService W) (ctx : Ctx) (orderID : String) (w : W) :
    Option Err × W :=
  match s.repo.GetByID ctx orderID w with
  | ((_, some err), w1) =>
    (some (.wrap ("load order before processing id=" ++ orderID) err), w1)
  | ((order, none), w1) =>
    if order.Status ≠ StatusCreated then (none, w1)
    else
      match s.repo.UpdateStatus ctx orderID StatusProcessing w1 with
      | (some err, w2) => (some (.wrap ("set processing id=" ++ orderID) err), w2)
      | (none, w2) =>
        match s.sleepFn ctx (s.delayFn w2).1 (s.delayFn w2).2 with
        | (some err, w3) => (some (.wrap ("simulate processing id=" ++ orderID) err), w3)
        | (none, w3) =>
          match s.repo.UpdateStatus ctx orderID StatusCompleted w3 with
          | (some err, w4) => (some (.wrap ("set completed id=" ++ orderID) err), w4)
          | (none, w4) => (none, w4)

end OrderService

/-- Function `sleepWithContext`: a `select` between `<-ctx.Done()` and the timer.  `cancelledFirst`
says whether the context is cancelled before the timer of `d` fires (and is the case taken). -/
def sleepWithContext (cancelledFirst : Bool) (ctx : Ctx) (_d : Nat) : Option Err :=
  if cancelledFirst then ctx else none

/-! ## Wiring, as in cmd/server/main.go -/

/-- The channel behind `ChannelEnqueuer` as an `Enqueuer`; `pickSend` as in
`ChannelEnqueuer.Enqueue`. -/
def ChannelEnqueuer.toEnqueuer (pickSend : Bool) : Enqueuer Chan where
  Enqueue := ChannelEnqueuer.Enqueue pickSend

/-- A service over a store state `A` and a queue state `B`: the repository acts on the store,
the enqueuer on the queue, and the delay (always `delay`) and the sleep touch neither. -/
def OrderService.wire {A B : Type} (repo : OrderRepository A) (queue : Enqueuer B)
    (delay : Nat) (sleep : Ctx → Nat → Option Err) : OrderService (A × B) where
  repo :=
    { Create := fun ctx o w => ((repo.Create ctx o w.1).1, ((repo.Create ctx o w.1).2, w.2))
      GetByID := fun ctx id w => ((repo.GetByID ctx id w.1).1, ((repo.GetByID ctx id w.1).2, w.2))
      List := fun ctx l o w => ((repo.List ctx l o w.1).1, ((repo.List ctx l o w.1).2, w.2))
      Count := fun ctx w => ((repo.Count ctx w.1).1, ((repo.Count ctx w.1).2, w.2))
      UpdateStatus := fun ctx id st w =>
        ((repo.UpdateStatus ctx id st w.1).1, ((repo.UpdateStatus ctx id st w.1).2, w.2)) }
  queue :=
    { Enqueue := fun ctx id w => (queue.Enqueue ctx id w.2).map (fun r => (r.1, (w.1, r.2))) }
  delayFn := fun w => (delay, w)
  sleepFn := fun ctx d w => (sleep ctx d, w)

/-! ## Recording the calls a service makes -/

/-- A call made through one of the service's collaborators. -/
inductive Call where
  | Create (order : Order)
  | GetByID (id : String)
  | List (limit offset : Int)
  | Count
  | UpdateStatus (id status : String)
  | Enqueue (id : String)
  | delay
  | sleep (d : Nat)
deriving DecidableEq, Repr

/-- The same service, whose state also holds the list of the calls made so far, oldest
first: each collaborator does what it did and appends its call. -/
def OrderService.traced {W : Type} (s : OrderService W) : OrderService (W × List Call) where
  repo :=
    { Create := fun ctx o w =>
        ((s.repo.Create ctx o w.1).1, ((s.repo.Create ctx o w.1).2, w.2 ++ [Call.Create o]))
      GetByID := fun ctx id w =>
        ((s.repo.GetByID ctx id w.1).1, ((s.repo.GetByID ctx id w.1).2, w.2 ++ [Call.GetByID id]))
      List := fun ctx l o w =>
        ((s.repo.List ctx l o w.1).1, ((s.repo.List ctx l o w.1).2, w.2 ++ [Call.List l o]))
      Count := fun ctx w =>
        ((s.repo.Count ctx w.1).1, ((s.repo.Count ctx w.1).2, w.2 ++ [Call.Count]))
      UpdateStatus := fun ctx id st w =>
        ((s.repo.UpdateStatus ctx id st w.1).1,
          ((s.repo.UpdateStatus ctx id st w.1).2, w.2 ++ [Call.UpdateStatus id st])) }
  queue :=
    { Enqueue := fun ctx id w =>
        (s.queue.Enqueue ctx id w.1).map (fun r => (r.1, (r.2, w.2 ++ [Call.Enqueue id]))) }
  delayFn := fun w => ((s.delayFn w.1).1, ((s.delayFn w.1).2, w.2 ++ [Call.delay]))
  sleepFn := fun ctx d w =>
    ((s.sleepFn ctx d w.1).1, ((s.sleepFn ctx d w.1).2, w.2 ++ [Call.sleep d]))

/-! ## worker/worker.go -/

/-- The interface `Processor`, over a state `W`. -/
structure Processor (W : Type) where
  ProcessOrder : Ctx → String → W → Option Err × W

/-- An `OrderService` is the worker's `Processor`, as wired in `main`. -/
def OrderService.toProcessor {W : Type} (s : OrderService W) : Processor W where
  ProcessOrder := s.ProcessOrder

/-- The reason logged in `msg=worker_stopped reason=...`. -/
inductive StopReason where
  | context_canceled
  | queue_closed
deriving DecidableEq, Repr

/-- A line written by `w.Logger.Printf`. -/
inductive LogLine where
  | worker_stopped (reason : StopReason)
  | worker_process_failed (order_id : String) (err : Err)
deriving DecidableEq, Repr

/-- What the worker has done so far: the processor's state, the lines logged and the ids
`ProcessOrder` was invoked on, both oldest first. -/
structure WorkerState (W : Type) where
  world : W
  logs : List LogLine
  invoked : List String

/-- How `Run` ends: it returns, leaving `queue` in the channel, or it waits for ever (the
context is live and the channel is empty and open). -/
inductive RunResult (W : Type) where
  | returned (st : WorkerState W) (queue : List String)
  | waiting (st : WorkerState W)

/-- Method `OrderWorker.Run`, from iteration `i` on, for a context and a channel that nobody else
touches meanwhile: `ctx` is the worker's context, `closed` whether the channel is closed, the
list the values in the channel, oldest first.  Each iteration is one `select`: the case
`<-ctx.Done()` is ready when the context is cancelled, the receive when the channel holds a
value or is closed; when both are ready Go takes either one, and `pickDone i` says whether
iteration `i` takes `<-ctx.Done()`. -/
def OrderWorker.Run {W : Type} (p : Processor W) (ctx : Ctx) (closed : Bool)
    (pickDone : Nat → Bool) : Nat → List String → WorkerState W → RunResult W
  | i, [], st =>
    let stop (r : StopReason) : RunResult W :=
      .returned { st with logs := st.logs ++ [.worker_stopped r] } []
    if ctx.isSome then
      if closed && !pickDone i then stop .queue_closed else stop .context_canceled
    else
      if closed then stop .queue_closed else .waiting st
  | i, orderID :: rest, st =>
    if ctx.isSome && pickDone i then
      .returned { st with logs := st.logs ++ [.worker_stopped .context_canceled] }
        (orderID :: rest)
    else
      let r := p.ProcessOrder ctx orderID st.world
      let logs :=
        match r.1 with
        | some err => st.logs ++ [.worker_process_failed orderID err]
        | none => st.logs
      OrderWorker.Run p ctx closed pickDone (i + 1) rest
        { world := r.2, logs := logs, invoked := st.invoked ++ [orderID] }

/-! ## Concrete stores and queues used to exercise the theorems -/

/-- A store that never fails, holding `rows`. -/
def DB.ofRows (rows : List Order) : DB := { rows := rows, tick := 0, faults := fun _ => none }

/-- Alice's order, as in `TestProcessOrder_TransitionsToCompleted`. -/
def aliceOrder : Order :=
  { ID := "a1", CustomerName := "Alice", Amount := 500, Status := StatusCreated, CreatedAt := 10 }

/-- A second order, already completed. -/
def bobOrder : Order :=
  { ID := "b2", CustomerName := "Bob", Amount := 7, Status := StatusCompleted, CreatedAt := 20 }

/-- An enqueuer over a list that always accepts, as `fakeEnqueuer` in the tests. -/
def fakeEnqueuer : Enqueuer (List String) where
  Enqueue := fun _ id q => .ret (none, q ++ [id])

/-- The service of the tests: the SQL repository, `fakeEnqueuer`, no delay, a sleep that
returns at once. -/
def testService : OrderService (DB × List String) :=
  OrderService.wire NewPostgresOrderRepository fakeEnqueuer 0 (fun _ _ => none)

/-- A channel of capacity 1 that is full. -/
def fullQueue : Chan := { buf := ["x0"], cap := 1, closed := false }

/-- The service as `main` wires it: the SQL repository and the channel enqueuer. -/
def mainService (pickSend : Bool) (delay : Nat) (sleep : Ctx → Nat → Option Err) :
    OrderService (DB × Chan) :=
  OrderService.wire NewPostgresOrderRepository (ChannelEnqueuer.toEnqueuer pickSend) delay sleep

/-- A repository through which another actor gets to act on the store right after each load:
what the caller of `GetByID` does next meets the store as that actor left it. -/
def OrderRepository.raceAfterLoad {W : Type} (repo : OrderRepository W) (actor : W → W) :
    OrderRepository W where
  Create := repo.Create
  GetByID := fun ctx id w => ((repo.GetByID ctx id w).1, actor (repo.GetByID ctx id w).2)
  List := repo.List
  Count := repo.Count
  UpdateStatus := repo.UpdateStatus

/-- A second actor that runs `ProcessOrder` on Alice's order from start to end. -/
def secondActor (w : DB × List String) : DB × List String :=
  (testService.ProcessOrder none "a1" w).2

/-- The service of the tests, racing with `secondActor` after its load, and whose sleep is
cut short by cancellation. -/
def racingService : OrderService (DB × List String) where
  repo := testService.repo.raceAfterLoad secondActor
  queue := testService.queue
  delayFn := testService.delayFn
  sleepFn := fun _ _ w => (some Canceled, w)

/-- The processor's state after `ProcessOrder` has run on each id in turn. -/
def processAll {W : Type} (p : Processor W) (ctx : Ctx) : List String → W → W
  | [], w => w
  | id :: rest, w => processAll p ctx rest (p.ProcessOrder ctx id w).2

/-- The lines logged for those of these calls that return an error, in the order of the
calls. -/
def failureLines {W : Type} (p : Processor W) (ctx : Ctx) : List String → W → List LogLine
  | [], _ => []
  | id :: rest, w =>
    (match (p.ProcessOrder ctx id w).1 with
      | some err => [LogLine.worker_process_failed id err]
      | none => []) ++ failureLines p ctx rest (p.ProcessOrder ctx id w).2

/-- A store whose every call fails with the cancellation of the caller's context. -/
def canceledDB : DB := { rows := [aliceOrder], tick := 0, faults := fun _ => some (.exec Canceled) }

/-- A repository through which another actor gets to act on the store right after each page
read: the `Count` that follows a `List` meets the store as that actor left it. -/
def OrderRepository.raceAfterList {W : Type} (repo : OrderRepository W) (actor : W → W) :
    OrderRepository W where
  Create := repo.Create
  GetByID := repo.GetByID
  List := fun ctx l o w => ((repo.List ctx l o w).1, actor (repo.List ctx l o w).2)
  Count := repo.Count
  UpdateStatus := repo.UpdateStatus

/-- What a call of another actor does to the SQL store; the calls that are not repository
calls leave it alone. -/
def Call.onStore : Call → DB → DB
  | .Create o, db => (PostgresOrderRepository.Create none o db).2
  | .GetByID id, db => (PostgresOrderRepository.GetByID none id db).2
  | .List l o, db => (PostgresOrderRepository.List none l o db).2
  | .Count, db => (PostgresOrderRepository.Count none db).2
  | .UpdateStatus id st, db => (PostgresOrderRepository.UpdateStatus none id st db).2
  | .Enqueue _, db => db
  | .delay, db => db
  | .sleep _, db => db

/-- The SQL store after other actors have made these calls, in this order. -/
def othersAct (others : List Call) (db : DB) : DB :=
  others.foldl (fun d c => c.onStore d) db

/-- A third order, created while a page is being read. -/
def carolOrder : Order :=
  { ID := "c3", CustomerName := "Carol", Amount := 31, Status := StatusCreated, CreatedAt := 30 }

/-! ## Lemmas -/

theorem TrimSpace_eq_empty_iff (s : String) :
    TrimSpace s = "" ↔ ∀ c ∈ s.data, isSpace c = true := by
  unfold TrimSpace
  rw [String.ext_iff]
  show List.rdropWhile isSpace (List.dropWhile isSpace s.data) = [] ↔ _
  rw [List.rdropWhile_eq_nil_iff]
  constructor
  · intro h
    by_contra hne
    have hd : s.data.dropWhile isSpace ≠ [] := by
      intro h0
      exact hne (List.dropWhile_eq_nil_iff.mp h0)
    have h1 := List.head_dropWhile_not isSpace s.data hd
    have h2 := h _ (List.head_mem hd)
    simp [h2] at h1
  · intro h x hx
    exact h x ((List.dropWhile_sublist isSpace).subset hx)

theorem Err.is_wrap (m : String) (e t : Err) (h : e.is t = true) : (Err.wrap m e).is t = true := by
  simp [Err.is, h]

theorem Err.is_refl (e : Err) : e.is e = true := by
  cases e <;> simp [Err.is]

theorem pg_GetByID_found (ctx : Ctx) (id : String) (db : DB) (o : Order)
    (hfault : db.faults db.tick = none)
    (hfind : db.rows.find? (fun x => x.ID == id) = some o) :
    PostgresOrderRepository.GetByID ctx id db = ((o, none), db.next db.rows) := by
  simp [PostgresOrderRepository.GetByID, DB.fault, hfault, hfind]

theorem pg_rowsAffected_pos (id : String) (rows : List Order) (o : Order)
    (hfind : rows.find? (fun x => x.ID == id) = some o) : PostgresOrderRepository.rowsAffected id rows ≠ 0 := by
  unfold PostgresOrderRepository.rowsAffected
  have hm := List.mem_of_find?_eq_some hfind
  have hp := List.find?_some hfind
  have : o ∈ rows.filter (fun x => x.ID == id) := List.mem_filter.mpr ⟨hm, hp⟩
  intro h0
  rw [List.length_eq_zero] at h0
  rw [h0] at this
  exact absurd this (List.not_mem_nil _)

theorem pg_UpdateStatus_found (ctx : Ctx) (id status : String) (db : DB) (o : Order)
    (hfault : db.faults db.tick = none)
    (hfind : db.rows.find? (fun x => x.ID == id) = some o) :
    PostgresOrderRepository.UpdateStatus ctx id status db = (none, db.next (PostgresOrderRepository.setStatus id status db.rows)) := by
  simp [PostgresOrderRepository.UpdateStatus, DB.fault, hfault, pg_rowsAffected_pos id db.rows o hfind]

theorem pg_find?_setStatus (id status : String) (rows : List Order) :
    (PostgresOrderRepository.setStatus id status rows).find? (fun x => x.ID == id) =
      (rows.find? (fun x => x.ID == id)).map (fun o => { o with Status := status }) := by
  induction rows with
  | nil => rfl
  | cons x xs ih =>
    have hcons : PostgresOrderRepository.setStatus id status (x :: xs) =
        (if x.ID == id then { x with Status := status } else x) ::
          PostgresOrderRepository.setStatus id status xs := rfl
    rw [hcons]
    by_cases hx : x.ID = id
    · simp [hx]
    · simp [hx, ih]

theorem pg_setStatus_setStatus (id s1 s2 : String) (rows : List Order) :
    PostgresOrderRepository.setStatus id s2 (PostgresOrderRepository.setStatus id s1 rows) =
      PostgresOrderRepository.setStatus id s2 rows := by
  unfold PostgresOrderRepository.setStatus
  rw [List.map_map]
  apply List.map_congr_left
  intro x _
  by_cases hx : x.ID = id <;> simp [hx]

theorem pg_GetByID_of_ok (ctx : Ctx) (id : String) (db : DB) (o : Order)
    (h : (PostgresOrderRepository.GetByID ctx id db).1 = (o, none)) :
    PostgresOrderRepository.GetByID ctx id db = ((o, none), db.next db.rows) ∧
      db.rows.find? (fun x => x.ID == id) = some o := by
  unfold PostgresOrderRepository.GetByID at h ⊢
  cases hf : db.fault with
  | none =>
    cases hr : db.rows.find? (fun x => x.ID == id) with
    | none =>
      simp only [hf, hr] at h
      split at h <;> simp at h
    | some x =>
      simp only [hf, hr] at h ⊢
      simp only [Prod.mk.injEq, and_true] at h
      simp [h]
  | some f =>
    cases f with
    | exec e =>
      simp only [hf] at h
      split at h <;> simp at h
    | scan e =>
      cases hr : db.rows.find? (fun x => x.ID == id) with
      | none =>
        simp only [hf, hr] at h
        split at h <;> simp at h
      | some x =>
        simp only [hf, hr] at h ⊢
        simp only [Prod.mk.injEq, and_true] at h
        simp [h]
    | iter e =>
      cases hr : db.rows.find? (fun x => x.ID == id) with
      | none =>
        simp only [hf, hr] at h
        split at h <;> simp at h
      | some x =>
        simp only [hf, hr] at h ⊢
        simp only [Prod.mk.injEq, and_true] at h
        simp [h]
    | affected e =>
      cases hr : db.rows.find? (fun x => x.ID == id) with
      | none =>
        simp only [hf, hr] at h
        split at h <;> simp at h
      | some x =>
        simp only [hf, hr] at h ⊢
        simp only [Prod.mk.injEq, and_true] at h
        simp [h]

theorem pg_UpdateStatus_of_ok (ctx : Ctx) (id status : String) (db : DB)
    (h : (PostgresOrderRepository.UpdateStatus ctx id status db).1 = none) :
    PostgresOrderRepository.UpdateStatus ctx id status db =
      (none, db.next (PostgresOrderRepository.setStatus id status db.rows)) := by
  unfold PostgresOrderRepository.UpdateStatus at h ⊢
  split at h
  · simp at h
  · simp at h
  · split at h
    · simp at h
    · rename_i hne
      simp [hne]

/-- What `ProcessOrder` does over the SQL store when the load returns a "created" order and
the update to "processing" succeeds: the outcome is decided by the sleep, and, when the sleep
returns without error, by the second update. -/
theorem ProcessOrder_created_unfold {B : Type} (queue : Enqueuer B) (delay : Nat)
    (sleep : Ctx → Nat → Option Err) (ctx : Ctx) (id : String) (db : DB) (q : B) (o : Order)
    (calls : List Call)
    (hload : (PostgresOrderRepository.GetByID ctx id db).1 = (o, none))
    (hstatus : o.Status = StatusCreated)
    (hupd : (PostgresOrderRepository.UpdateStatus ctx id StatusProcessing
      (db.next db.rows)).1 = none) :
    (OrderService.wire NewPostgresOrderRepository queue delay sleep).traced.ProcessOrder ctx id
        ((db, q), calls) =
      match sleep ctx delay with
      | some err =>
        (some (.wrap ("simulate processing id=" ++ id) err),
          ((⟨PostgresOrderRepository.setStatus id StatusProcessing db.rows, db.tick + 2,
            db.faults⟩, q),
          calls ++ [Call.GetByID id, Call.UpdateStatus id StatusProcessing, Call.delay,
            Call.sleep delay]))
      | none =>
        match PostgresOrderRepository.UpdateStatus ctx id StatusCompleted
          ⟨PostgresOrderRepository.setStatus id StatusProcessing db.rows, db.tick + 2,
            db.faults⟩ with
        | (some err, db4) =>
          (some (.wrap ("set completed id=" ++ id) err),
            ((db4, q), calls ++ [Call.GetByID id, Call.UpdateStatus id StatusProcessing,
              Call.delay, Call.sleep delay, Call.UpdateStatus id StatusCompleted]))
        | (none, db4) =>
          (none,
            ((db4, q), calls ++ [Call.GetByID id, Call.UpdateStatus id StatusProcessing,
              Call.delay, Call.sleep delay, Call.UpdateStatus id StatusCompleted])) := by
  have hg := (pg_GetByID_of_ok ctx id db o hload).1
  have hu := pg_UpdateStatus_of_ok ctx id StatusProcessing (db.next db.rows) hupd
  simp only [OrderService.ProcessOrder, OrderService.traced, OrderService.wire,
    NewPostgresOrderRepository, hg, hu, hstatus]
  simp only [DB.next]
  cases hs : sleep ctx delay with
  | some err => simp
  | none =>
    simp only []
    rcases hc : PostgresOrderRepository.UpdateStatus ctx id StatusCompleted
      ⟨PostgresOrderRepository.setStatus id StatusProcessing db.rows, db.tick + 1 + 1,
        db.faults⟩ with ⟨_ | e, db4⟩ <;> simp

/-- A run of `ProcessOrder` over the SQL store on a "created" order, with no driver fault
and a sleep that returns without error. -/
theorem pg_ProcessOrder_run {B : Type} (queue : Enqueuer B) (delay : Nat)
    (sleep : Ctx → Nat → Option Err) (ctx : Ctx) (id : String) (db : DB) (q : B) (o : Order)
    (calls : List Call)
    (hfind : db.rows.find? (fun x => x.ID == id) = some o)
    (hstatus : o.Status = StatusCreated)
    (hok : ∀ k < 3, db.faults (db.tick + k) = none)
    (hsleep : sleep ctx delay = none) :
    (OrderService.wire NewPostgresOrderRepository queue delay sleep).traced.ProcessOrder ctx id
        ((db, q), calls) =
      (none,
        ((⟨db.rows.map (fun x => if x.ID == id then { x with Status := StatusCompleted } else x),
            db.tick + 3, db.faults⟩, q),
          calls ++ [Call.GetByID id, Call.UpdateStatus id StatusProcessing, Call.delay,
            Call.sleep delay, Call.UpdateStatus id StatusCompleted])) ∧
    (db.rows.map (fun x => if x.ID == id then { x with Status := StatusCompleted } else x)).find?
        (fun x => x.ID == id) = some { o with Status := StatusCompleted } := by
  have h0 : db.faults db.tick = none := by simpa using hok 0 (by omega)
  have h1 : db.faults (db.tick + 1) = none := hok 1 (by omega)
  have h2 : db.faults (db.tick + 2) = none := hok 2 (by omega)
  have hload := pg_GetByID_found ctx id db o h0 hfind
  have hupd := pg_UpdateStatus_found ctx id StatusProcessing (db.next db.rows) o
    (by simpa [DB.next] using h1) (by simpa [DB.next] using hfind)
  have hfind1 := pg_find?_setStatus id StatusProcessing db.rows
  rw [hfind] at hfind1
  have hupd2 := pg_UpdateStatus_found ctx id StatusCompleted
    ⟨PostgresOrderRepository.setStatus id StatusProcessing db.rows, db.tick + 2, db.faults⟩
    _ h2 hfind1
  have hfind2 := pg_find?_setStatus id StatusCompleted db.rows
  rw [hfind] at hfind2
  refine ⟨?_, hfind2⟩
  rw [ProcessOrder_created_unfold queue delay sleep ctx id db q o calls
    (by rw [hload]) hstatus (by rw [hupd]), hsleep]
  simp only [hupd2, DB.next, pg_setStatus_setStatus]
  rfl

theorem pg_rowsAffected_eq_zero (id : String) (rows : List Order) :
    PostgresOrderRepository.rowsAffected id rows = 0 ↔ rows.any (fun x => x.ID == id) = false := by
  unfold PostgresOrderRepository.rowsAffected
  rw [List.length_eq_zero, List.filter_eq_nil_iff, List.any_eq_false]

theorem pg_List_state (ctx : Ctx) (limit offset : Int) (db : DB) :
    (PostgresOrderRepository.List ctx limit offset db).2 = db.next db.rows := by
  unfold PostgresOrderRepository.List
  simp only []
  split
  · rfl
  · rfl
  · rfl
  · split <;> rfl

theorem pg_List_of_ok (ctx : Ctx) (limit offset : Int) (db : DB) (orders : List Order)
    (h : (PostgresOrderRepository.List ctx limit offset db).1 = (orders, none)) :
    orders.length ≤ db.rows.length ∧ orders.length ≤ limit.toNat := by
  have hpage : ∀ l : List Order,
      ((l.insertionSort (fun a b => b.CreatedAt ≤ a.CreatedAt)).drop offset.toNat).take
          limit.toNat = orders →
      orders.length ≤ l.length ∧ orders.length ≤ limit.toNat := by
    intro l hl
    rw [← hl, List.length_take, List.length_drop, List.length_insertionSort]
    omega
  unfold PostgresOrderRepository.List at h
  simp only [] at h
  split at h
  · simp at h
  · simp at h
  · simp at h
  · split at h
    · simp at h
    · simp only [Prod.mk.injEq, and_true] at h
      exact hpage _ h

theorem pg_Count_state (ctx : Ctx) (db : DB) :
    (PostgresOrderRepository.Count ctx db).2 = db.next db.rows := by
  unfold PostgresOrderRepository.Count
  split <;> rfl

theorem pg_Count_of_ok (ctx : Ctx) (db : DB) (total : Int)
    (h : (PostgresOrderRepository.Count ctx db).1 = (total, none)) :
    total = db.rows.length := by
  unfold PostgresOrderRepository.Count at h
  split at h
  · simp at h
  · simp only [Prod.mk.injEq, and_true] at h
    exact h.symm

theorem pg_onStore_length (c : Call) (db : DB) :
    db.rows.length ≤ (c.onStore db).rows.length := by
  cases c with
  | Create o =>
    simp only [Call.onStore, PostgresOrderRepository.Create]
    split <;> simp [DB.next]
  | GetByID id =>
    simp only [Call.onStore, PostgresOrderRepository.GetByID]
    split
    · split <;> simp [DB.next]
    · simp [DB.next]
  | List l o => simp [Call.onStore, pg_List_state, DB.next]
  | Count => simp [Call.onStore, pg_Count_state, DB.next]
  | UpdateStatus id st =>
    simp only [Call.onStore, PostgresOrderRepository.UpdateStatus]
    split
    · simp [DB.next]
    · simp [DB.next, PostgresOrderRepository.setStatus]
    · split <;> simp [DB.next, PostgresOrderRepository.setStatus]
  | Enqueue id => simp [Call.onStore]
  | delay => simp [Call.onStore]
  | sleep d => simp [Call.onStore]

theorem pg_othersAct_length (others : List Call) (db : DB) :
    db.rows.length ≤ (othersAct others db).rows.length := by
  induction others generalizing db with
  | nil => simp [othersAct]
  | cons c rest ih =>
    have h1 := pg_onStore_length c db
    have h2 := ih (c.onStore db)
    simp only [othersAct, List.foldl_cons] at h2 ⊢
    omega

/-- A successful `ListOrders` over the SQL store, when between its page read and its count
another actor acts on the store without removing rows. -/
theorem pg_ListOrders_page_le {B : Type} (actor : DB → DB)
    (hgrow : ∀ d : DB, d.rows.length ≤ (actor d).rows.length) (queue : Enqueuer B)
    (delay : Nat) (sleep : Ctx → Nat → Option Err) (ctx : Ctx) (limit offset : Int) (db : DB)
    (q : B) (orders : List Order) (total : Int) (w : DB × B)
    (h : (OrderService.wire (NewPostgresOrderRepository.raceAfterList actor) queue delay
      sleep).ListOrders ctx limit offset (db, q) = ((orders, total, none), w)) :
    (orders.length : Int) ≤ total ∧ (orders.length : Int) ≤ limit := by
  unfold OrderService.ListOrders at h
  by_cases hl : limit ≤ 0 ∨ limit > 100
  · simp [hl] at h
  · by_cases ho : offset < 0
    · simp [hl, ho] at h
    · simp only [hl, ho, if_false, OrderService.wire, OrderRepository.raceAfterList,
        NewPostgresOrderRepository] at h
      rcases hL : (PostgresOrderRepository.List ctx limit offset db).1 with ⟨page, _ | e⟩
      · rcases hC : (PostgresOrderRepository.Count ctx
          (actor (PostgresOrderRepository.List ctx limit offset db).2)).1 with ⟨t, _ | e⟩
        · simp only [hL, hC, Prod.mk.injEq] at h
          obtain ⟨⟨hord, htot, _⟩, _⟩ := h
          subst hord htot
          have h1 := pg_List_of_ok ctx limit offset db page hL
          have h2 := pg_Count_of_ok ctx _ t hC
          have h3 := hgrow (PostgresOrderRepository.List ctx limit offset db).2
          rw [pg_List_state] at h3 h2
          simp only [DB.next] at h3
          have h4 : ((limit.toNat : Nat) : Int) = limit := Int.toNat_of_nonneg (by omega)
          refine ⟨?_, ?_⟩
          · rw [h2]
            exact_mod_cast le_trans h1.1 h3
          · rw [← h4]
            exact_mod_cast h1.2
        · simp [hL, hC] at h
      · simp [hL] at h

/-! ## Theorems -/

/-- C6: for every customer name that is empty or all white space (whatever the amount), and
for every amount `≤ 0` (whatever the name), `CreateOrder` returns the zero order and an error
for which `errors.Is(err, ErrValidation)` holds, and it leaves the state of the store and of
the queue as they were. -/
theorem CreateOrder_validation_error {W : Type} (s : OrderService W) (newID : String)
    (now : Int) (ctx : Ctx) (customerName : String) (amount : Int) (w : W)
    (h : (∀ c ∈ customerName.data, isSpace c = true) ∨ amount ≤ 0) :
    ∃ err, s.CreateOrder newID now ctx customerName amount w = .ret ((Order.zero, some err), w) ∧
      err.is ErrValidation = true := by
  unfold OrderService.CreateOrder
  by_cases hn : TrimSpace customerName = ""
  · exact ⟨.wrap "customer_name is required" ErrValidation, by simp [hn], by decide⟩
  · rcases h with h | h
    · exact absurd ((TrimSpace_eq_empty_iff _).mpr h) hn
    · exact ⟨.wrap "amount must be greater than 0" ErrValidation, by simp [hn, h], by decide⟩

theorem CreateOrder_validation_error_witness :
    (∃ err, testService.CreateOrder "id-1" 5 none " \t " 100 (DB.ofRows [], []) =
        .ret ((Order.zero, some err), (DB.ofRows [], [])) ∧ err.is ErrValidation = true) ∧
    (∃ err, testService.CreateOrder "id-1" 5 none "Alice" (-1) (DB.ofRows [], []) =
        .ret ((Order.zero, some err), (DB.ofRows [], [])) ∧ err.is ErrValidation = true) :=
  ⟨CreateOrder_validation_error testService "id-1" 5 none " \t " 100 (DB.ofRows [], [])
      (Or.inl (by decide)),
    CreateOrder_validation_error testService "id-1" 5 none "Alice" (-1) (DB.ofRows [], [])
      (Or.inr (by decide))⟩

/-- C10: for every limit and offset, when `limit < 1`, `limit > 100` or `offset < 0`,
`ListOrders` returns an error for which `errors.Is(err, ErrValidation)` holds and makes no
call to the store (state and recorded calls are as before); and when `1 ≤ limit ≤ 100` and
`offset ≥ 0`, it returns the page and the total whenever the store's `List` and then `Count`
succeed, and every error it returns is the store's own `List` or `Count` error, wrapped. -/
theorem ListOrders_validation {W : Type} (s : OrderService W) (ctx : Ctx) (limit offset : Int)
    (w : W) (calls : List Call) :
    ((limit < 1 ∨ 100 < limit ∨ offset < 0) →
      ∃ err, s.traced.ListOrders ctx limit offset (w, calls) = (([], 0, some err), (w, calls)) ∧
        err.is ErrValidation = true) ∧
    ((1 ≤ limit ∧ limit ≤ 100 ∧ 0 ≤ offset) →
      (∀ orders total w1 w2, s.repo.List ctx limit offset w = ((orders, none), w1) →
        s.repo.Count ctx w1 = ((total, none), w2) →
        s.ListOrders ctx limit offset w = ((orders, total, none), w2)) ∧
      (∀ err, (s.ListOrders ctx limit offset w).1.2.2 = some err →
        (∃ e0, (s.repo.List ctx limit offset w).1.2 = some e0 ∧ err = .wrap "list orders" e0) ∨
        (∃ e0, (s.repo.Count ctx (s.repo.List ctx limit offset w).2).1.2 = some e0 ∧
          err = .wrap "count orders" e0))) := by
  refine ⟨?_, ?_⟩
  · intro h
    unfold OrderService.ListOrders
    by_cases hl : limit ≤ 0 ∨ limit > 100
    · exact ⟨.wrap "limit must be 1..100" ErrValidation, by simp [hl], by decide⟩
    · have ho : offset < 0 := by omega
      exact ⟨.wrap "offset must be >= 0" ErrValidation, by simp [hl, ho], by decide⟩
  · rintro ⟨h1, h2, h3⟩
    have hl : ¬ (limit ≤ 0 ∨ limit > 100) := by omega
    have ho : ¬ offset < 0 := by omega
    refine ⟨?_, ?_⟩
    · intro orders total w1 w2 hL hC
      simp [OrderService.ListOrders, hl, ho, hL, hC]
    · intro err
      unfold OrderService.ListOrders
      rcases hL : s.repo.List ctx limit offset w with ⟨⟨orders, _ | e⟩, w1⟩
      · rcases hC : s.repo.Count ctx w1 with ⟨⟨total, _ | e⟩, w2⟩
        · simp [hl, ho, hL, hC]
        · simp [hl, ho, hL, hC]
          intro h; exact h.symm
      · simp [hl, ho, hL]
        intro h; exact Or.inl h.symm

theorem ListOrders_validation_witness :
    (∃ err, testService.traced.ListOrders none 101 0 ((DB.ofRows [aliceOrder], []), []) =
        (([], 0, some err), ((DB.ofRows [aliceOrder], []), [])) ∧ err.is ErrValidation = true) ∧
    (testService.ListOrders none 10 0 (DB.ofRows [aliceOrder, bobOrder], [])).1 =
      ([bobOrder, aliceOrder], 2, none) :=
  ⟨(ListOrders_validation testService none 101 0 (DB.ofRows [aliceOrder], []) []).1
      (Or.inr (Or.inl (by decide))),
    by
      rw [((ListOrders_validation testService none 10 0 (DB.ofRows [aliceOrder, bobOrder], [])
        []).2 ⟨by decide, by decide, by decide⟩).1 [bobOrder, aliceOrder] 2
        ((DB.ofRows [aliceOrder, bobOrder]).next [aliceOrder, bobOrder], [])
        (((DB.ofRows [aliceOrder, bobOrder]).next [aliceOrder, bobOrder]).next
          [aliceOrder, bobOrder], []) rfl rfl]⟩

/-- C5: for every customer name that is not empty after trimming and every amount `> 0`, when
the store's `Create` of the new order succeeds and the `Enqueue` of its id succeeds,
`CreateOrder` returns without error the order with the new id, the trimmed name, the given
amount, status "created" and the current time; the calls it makes are exactly one `Create`,
of exactly that order, followed by exactly one `Enqueue`, of that order's id, made on the
state in which the record is persisted. -/
theorem CreateOrder_persists_then_enqueues {W : Type} (s : OrderService W) (newID : String)
    (now : Int) (ctx : Ctx) (customerName : String) (amount : Int) (w w1 w2 : W)
    (calls : List Call)
    (hname : TrimSpace customerName ≠ "") (hamount : 0 < amount)
    (hcreate : s.repo.Create ctx
      ⟨newID, TrimSpace customerName, amount, StatusCreated, now⟩ w = (none, w1))
    (henqueue : s.queue.Enqueue ctx newID w1 = .ret (none, w2)) :
    s.traced.CreateOrder newID now ctx customerName amount (w, calls) =
      .ret ((⟨newID, TrimSpace customerName, amount, StatusCreated, now⟩, none),
        (w2, calls ++ [Call.Create ⟨newID, TrimSpace customerName, amount, StatusCreated, now⟩,
          Call.Enqueue newID])) := by
  have ha : ¬ amount ≤ 0 := by omega
  simp [OrderService.CreateOrder, OrderService.traced, hname, ha, hcreate, henqueue,
    Outcome.map]

theorem CreateOrder_persists_then_enqueues_witness :
    (mainService true 0 (fun _ _ => none)).traced.CreateOrder "id-7" 99 none " Alice " 120
        ((DB.ofRows [bobOrder], ⟨[], 100, false⟩), []) =
      .ret ((⟨"id-7", "Alice", 120, "created", 99⟩, none),
        (((DB.ofRows [bobOrder]).next [bobOrder, ⟨"id-7", "Alice", 120, "created", 99⟩],
          ⟨["id-7"], 100, false⟩),
          [Call.Create ⟨"id-7", "Alice", 120, "created", 99⟩, Call.Enqueue "id-7"])) :=
  CreateOrder_persists_then_enqueues (mainService true 0 (fun _ _ => none)) "id-7" 99 none
    " Alice " 120 (DB.ofRows [bobOrder], ⟨[], 100, false⟩)
    ((DB.ofRows [bobOrder]).next [bobOrder, ⟨"id-7", "Alice", 120, "created", 99⟩],
      ⟨[], 100, false⟩)
    ((DB.ofRows [bobOrder]).next [bobOrder, ⟨"id-7", "Alice", 120, "created", 99⟩],
      ⟨["id-7"], 100, false⟩) [] (by decide) (by decide) rfl rfl

/-- C7: for every valid customer name and amount, over the SQL store and any queue, if the
`INSERT` of `Create` succeeds and the `Enqueue` that follows fails with `e`, then `CreateOrder`
returns the zero order and an error `err` with `errors.Is(err, e)`; the store then holds its
former rows followed by the new record, with status "created"; and the calls made are exactly
that `Create` and that `Enqueue`: nothing is deleted or written in compensation.  The channel
enqueuer fails so when the channel is full (and open) and the context is cancelled: it then
returns an error wrapping the cancellation cause and leaves the channel as it was. -/
theorem CreateOrder_enqueue_failure_keeps_record {B : Type} (queue : Enqueuer B) (delay : Nat)
    (sleep : Ctx → Nat → Option Err) (newID : String) (now : Int) (ctx : Ctx)
    (customerName : String) (amount : Int) (db : DB) (q q1 : B) (e : Err) (calls : List Call)
    (hname : TrimSpace customerName ≠ "") (hamount : 0 < amount)
    (hcreate : (PostgresOrderRepository.Create ctx
      ⟨newID, TrimSpace customerName, amount, StatusCreated, now⟩ db).1 = none)
    (henqueue : queue.Enqueue ctx newID q = .ret (some e, q1)) :
    (∃ err,
      (OrderService.wire NewPostgresOrderRepository queue delay sleep).traced.CreateOrder
          newID now ctx customerName amount ((db, q), calls) =
        .ret ((Order.zero, some err),
          ((db.next (db.rows ++ [⟨newID, TrimSpace customerName, amount, StatusCreated, now⟩]),
            q1),
            calls ++ [Call.Create ⟨newID, TrimSpace customerName, amount, StatusCreated, now⟩,
              Call.Enqueue newID])) ∧
      err.is e = true) ∧
    (∀ (pickSend : Bool) (cause : Err) (ch : Chan), ch.closed = false →
      ch.cap ≤ ch.buf.length →
      ChannelEnqueuer.Enqueue pickSend (some cause) newID ch =
        .ret (some (.wrap ("enqueue order id=" ++ newID) cause), ch)) := by
  have ha : ¬ amount ≤ 0 := by omega
  refine ⟨⟨.wrap ("enqueue order id=" ++ newID) e, ?_, Err.is_wrap _ _ _ (Err.is_refl e)⟩, ?_⟩
  · have hc : PostgresOrderRepository.Create ctx
        ⟨newID, TrimSpace customerName, amount, StatusCreated, now⟩ db =
        (none, db.next (db.rows ++ [⟨newID, TrimSpace customerName, amount, StatusCreated,
          now⟩])) := by
      unfold PostgresOrderRepository.Create at hcreate ⊢
      split at hcreate
      · simp at hcreate
      · rfl
    simp [OrderService.CreateOrder, OrderService.traced, OrderService.wire,
      NewPostgresOrderRepository, hname, ha, hc, henqueue, Outcome.map]
  · intro pickSend cause ch hclosed hfull
    have hlt : ¬ ch.buf.length < ch.cap := by omega
    simp [ChannelEnqueuer.Enqueue, hclosed, hlt]

theorem CreateOrder_enqueue_failure_keeps_record_witness :
    (∃ err,
      (mainService true 0 (fun _ _ => none)).traced.CreateOrder "id-7" 99 (some Canceled)
          "Alice" 120 ((DB.ofRows [bobOrder], fullQueue), []) =
        .ret ((Order.zero, some err),
          (((DB.ofRows [bobOrder]).next [bobOrder, ⟨"id-7", "Alice", 120, "created", 99⟩],
            fullQueue),
            [Call.Create ⟨"id-7", "Alice", 120, "created", 99⟩, Call.Enqueue "id-7"])) ∧
      err.is (.wrap "enqueue order id=id-7" Canceled) = true) :=
  (CreateOrder_enqueue_failure_keeps_record (ChannelEnqueuer.toEnqueuer true) 0
    (fun _ _ => none) "id-7" 99 (some Canceled) "Alice" 120 (DB.ofRows [bobOrder]) fullQueue
    fullQueue (.wrap "enqueue order id=id-7" Canceled) [] (by decide) (by decide) rfl rfl).1

/-- C1: over the SQL store, for every store whose load finds under `id` an order with status
"created" and whose three store calls (the load and the two updates) meet no driver fault,
`ProcessOrder(id)` with a sleep that returns without error returns no error; its calls are
the load, the update to "processing", the delay and the sleep, then the update to
"completed", so exactly two status writes for `id`, in that order; and the table afterwards
is the former table with the status of the rows of that id set to "completed", every other
field and every other row being as before. -/
theorem ProcessOrder_created_completes {B : Type} (queue : Enqueuer B) (delay : Nat)
    (sleep : Ctx → Nat → Option Err) (ctx : Ctx) (id : String) (db : DB) (q : B) (o : Order)
    (calls : List Call)
    (hfind : db.rows.find? (fun x => x.ID == id) = some o)
    (hstatus : o.Status = StatusCreated)
    (hok : ∀ k < 3, db.faults (db.tick + k) = none)
    (hsleep : sleep ctx delay = none) :
    (OrderService.wire NewPostgresOrderRepository queue delay sleep).traced.ProcessOrder ctx id
        ((db, q), calls) =
      (none,
        ((⟨db.rows.map (fun x => if x.ID == id then { x with Status := StatusCompleted } else x),
            db.tick + 3, db.faults⟩, q),
          calls ++ [Call.GetByID id, Call.UpdateStatus id StatusProcessing, Call.delay,
            Call.sleep delay, Call.UpdateStatus id StatusCompleted])) ∧
    (db.rows.map (fun x => if x.ID == id then { x with Status := StatusCompleted } else x)).find?
        (fun x => x.ID == id) = some { o with Status := StatusCompleted } :=
  pg_ProcessOrder_run queue delay sleep ctx id db q o calls hfind hstatus hok hsleep

theorem ProcessOrder_created_completes_witness :
    testService.traced.ProcessOrder none "a1" ((DB.ofRows [aliceOrder, bobOrder], []), []) =
      (none,
        ((⟨[{ aliceOrder with Status := "completed" }, bobOrder], 3, fun _ => none⟩, []),
          [Call.GetByID "a1", Call.UpdateStatus "a1" "processing", Call.delay, Call.sleep 0,
            Call.UpdateStatus "a1" "completed"])) :=
  (ProcessOrder_created_completes fakeEnqueuer 0 (fun _ _ => none) none "a1"
    (DB.ofRows [aliceOrder, bobOrder]) [] aliceOrder [] rfl rfl (fun _ _ => rfl) rfl).1

/-- C2: over the SQL store, for every store and every id whose load returns an order with a
status other than "created", `ProcessOrder(id)` returns no error and its only call is that
load: no status write, no delay, no sleep, and the table is as before.  Hence a second
`ProcessOrder(id)` after a run that succeeded on a "created" order (and that meets no driver
fault either) returns no error, makes only its load and leaves the table as the first run
left it. -/
theorem ProcessOrder_not_created_noop {B : Type} (queue : Enqueuer B) (delay : Nat)
    (sleep : Ctx → Nat → Option Err) (ctx : Ctx) (id : String) (db : DB) (q : B) (o : Order)
    (calls : List Call) :
    ((PostgresOrderRepository.GetByID ctx id db).1 = (o, none) → o.Status ≠ StatusCreated →
      (OrderService.wire NewPostgresOrderRepository queue delay sleep).traced.ProcessOrder
          ctx id ((db, q), calls) =
        (none, ((⟨db.rows, db.tick + 1, db.faults⟩, q), calls ++ [Call.GetByID id]))) ∧
    (db.rows.find? (fun x => x.ID == id) = some o → o.Status = StatusCreated →
      (∀ k < 4, db.faults (db.tick + k) = none) → sleep ctx delay = none →
      ∀ r, r = (OrderService.wire NewPostgresOrderRepository queue delay
          sleep).traced.ProcessOrder ctx id ((db, q), calls) →
        r.1 = none ∧
        (OrderService.wire NewPostgresOrderRepository queue delay sleep).traced.ProcessOrder
            ctx id r.2 =
          (none, ((⟨r.2.1.1.rows, r.2.1.1.tick + 1, r.2.1.1.faults⟩, r.2.1.2),
            r.2.2 ++ [Call.GetByID id]))) := by
  have noop : ∀ (db : DB) (o : Order) (calls : List Call),
      (PostgresOrderRepository.GetByID ctx id db).1 = (o, none) → o.Status ≠ StatusCreated →
      (OrderService.wire NewPostgresOrderRepository queue delay sleep).traced.ProcessOrder
          ctx id ((db, q), calls) =
        (none, ((⟨db.rows, db.tick + 1, db.faults⟩, q), calls ++ [Call.GetByID id])) := by
    intro db o calls hload hstatus
    have hg := (pg_GetByID_of_ok ctx id db o hload).1
    simp [OrderService.ProcessOrder, OrderService.traced, OrderService.wire,
      NewPostgresOrderRepository, hg, hstatus, DB.next]
  refine ⟨noop db o calls, ?_⟩
  intro hfind hstatus hok hsleep r hr
  have h1 := (pg_ProcessOrder_run queue delay sleep ctx id db q o calls hfind hstatus
    (fun k hk => hok k (by omega)) hsleep)
  rw [h1.1] at hr
  subst hr
  refine ⟨rfl, ?_⟩
  have hload := pg_GetByID_found ctx id
    ⟨db.rows.map (fun x => if x.ID == id then { x with Status := StatusCompleted } else x),
      db.tick + 3, db.faults⟩ _ (hok 3 (by omega)) h1.2
  exact noop _ _ _ (by rw [hload]) (by simp [StatusCompleted, StatusCreated])

theorem ProcessOrder_not_created_noop_witness :
    testService.traced.ProcessOrder none "b2" ((DB.ofRows [aliceOrder, bobOrder], []), []) =
        (none, ((⟨[aliceOrder, bobOrder], 1, fun _ => none⟩, []), [Call.GetByID "b2"])) ∧
    testService.traced.ProcessOrder none "a1"
        (testService.traced.ProcessOrder none "a1"
          ((DB.ofRows [aliceOrder, bobOrder], []), [])).2 =
      (none,
        ((⟨[{ aliceOrder with Status := "completed" }, bobOrder], 4, fun _ => none⟩, []),
          [Call.GetByID "a1", Call.UpdateStatus "a1" "processing", Call.delay, Call.sleep 0,
            Call.UpdateStatus "a1" "completed", Call.GetByID "a1"])) :=
  ⟨(ProcessOrder_not_created_noop fakeEnqueuer 0 (fun _ _ => none) none "b2"
      (DB.ofRows [aliceOrder, bobOrder]) [] bobOrder []).1 rfl (by decide),
    ((ProcessOrder_not_created_noop fakeEnqueuer 0 (fun _ _ => none) none "a1"
      (DB.ofRows [aliceOrder, bobOrder]) [] aliceOrder []).2 rfl rfl (fun _ _ => rfl) rfl
      _ rfl).2⟩

/-- C4: over the SQL store, for every store whose load returns under `id` an order with
status "created": if the update to "processing" fails with `e`, `ProcessOrder(id)` returns an
error wrapping `e` and its calls are the load and that one update, so no delay, no sleep and
no update to "completed"; and if that update succeeds and the sleep returns the error `e`,
`ProcessOrder(id)` returns an error wrapping `e`, its calls are the load, the update to
"processing", the delay and the sleep, so no update to "completed", and the stored order is
the loaded one with status "processing". -/
theorem ProcessOrder_failure_paths {B : Type} (queue : Enqueuer B) (delay : Nat)
    (sleep : Ctx → Nat → Option Err) (ctx : Ctx) (id : String) (db : DB) (q : B) (o : Order)
    (calls : List Call)
    (hload : (PostgresOrderRepository.GetByID ctx id db).1 = (o, none))
    (hstatus : o.Status = StatusCreated) :
    (∀ e db2, PostgresOrderRepository.UpdateStatus ctx id StatusProcessing
        ⟨db.rows, db.tick + 1, db.faults⟩ = (some e, db2) →
      ∃ err, err.is e = true ∧
        (OrderService.wire NewPostgresOrderRepository queue delay sleep).traced.ProcessOrder
            ctx id ((db, q), calls) =
          (some err, ((db2, q),
            calls ++ [Call.GetByID id, Call.UpdateStatus id StatusProcessing]))) ∧
    ((PostgresOrderRepository.UpdateStatus ctx id StatusProcessing
        ⟨db.rows, db.tick + 1, db.faults⟩).1 = none →
      ∀ e, sleep ctx delay = some e →
      ∃ err, err.is e = true ∧
        (OrderService.wire NewPostgresOrderRepository queue delay sleep).traced.ProcessOrder
            ctx id ((db, q), calls) =
          (some err,
            ((⟨db.rows.map
                (fun x => if x.ID == id then { x with Status := StatusProcessing } else x),
              db.tick + 2, db.faults⟩, q),
            calls ++ [Call.GetByID id, Call.UpdateStatus id StatusProcessing, Call.delay,
              Call.sleep delay])) ∧
        (db.rows.map
            (fun x => if x.ID == id then { x with Status := StatusProcessing } else x)).find?
          (fun x => x.ID == id) = some { o with Status := StatusProcessing }) := by
  have hg := pg_GetByID_of_ok ctx id db o hload
  refine ⟨?_, ?_⟩
  · intro e db2 hupd
    refine ⟨.wrap ("set processing id=" ++ id) e, Err.is_wrap _ _ _ (Err.is_refl e), ?_⟩
    have hupd1 : PostgresOrderRepository.UpdateStatus ctx id StatusProcessing
        (db.next db.rows) = (some e, db2) := hupd
    simp [OrderService.ProcessOrder, OrderService.traced, OrderService.wire,
      NewPostgresOrderRepository, hg.1, hstatus, hupd1]
  · intro hupd e hsleep
    refine ⟨.wrap ("simulate processing id=" ++ id) e, Err.is_wrap _ _ _ (Err.is_refl e), ?_, ?_⟩
    · rw [ProcessOrder_created_unfold queue delay sleep ctx id db q o calls hload hstatus hupd,
        hsleep]
      rfl
    · have hf := pg_find?_setStatus id StatusProcessing db.rows
      rw [hg.2] at hf
      exact hf

theorem ProcessOrder_failure_paths_witness :
    (∃ err,
      err.is (.wrap "update order status id=a1 status=processing" DeadlineExceeded) = true ∧
      testService.traced.ProcessOrder none "a1"
          ((⟨[aliceOrder], 0, fun k => if k = 1 then some (.exec DeadlineExceeded) else none⟩,
            []), []) =
        (some err,
          ((⟨[aliceOrder], 2, fun k => if k = 1 then some (.exec DeadlineExceeded) else none⟩,
            []), [Call.GetByID "a1", Call.UpdateStatus "a1" "processing"]))) ∧
    (∃ err, err.is Canceled = true ∧
      (mainService true 300 (sleepWithContext true)).traced.ProcessOrder (some Canceled) "a1"
          ((DB.ofRows [aliceOrder, bobOrder], fullQueue), []) =
        (some err,
          ((⟨[{ aliceOrder with Status := "processing" }, bobOrder], 2, fun _ => none⟩,
            fullQueue),
            [Call.GetByID "a1", Call.UpdateStatus "a1" "processing", Call.delay,
              Call.sleep 300])) ∧
      [{ aliceOrder with Status := "processing" }, bobOrder].find?
        (fun x => x.ID == "a1") = some { aliceOrder with Status := "processing" }) :=
  ⟨(ProcessOrder_failure_paths fakeEnqueuer 0 (fun _ _ => none) none "a1"
      ⟨[aliceOrder], 0, fun k => if k = 1 then some (.exec DeadlineExceeded) else none⟩ []
      aliceOrder [] rfl rfl).1 _ _ rfl,
    (ProcessOrder_failure_paths (ChannelEnqueuer.toEnqueuer true) 300 (sleepWithContext true)
      (some Canceled) "a1" (DB.ofRows [aliceOrder, bobOrder]) fullQueue aliceOrder [] rfl
      rfl).2 rfl Canceled rfl⟩

/-- C3 (as the code has it): a status update is conditional only on a row with the id existing
when it runs, not on the stored status: an `UpdateStatus(id, status)` that meets no driver
fault sets the status of every row with that id to `status`, whatever it was, leaves the other
fields and the other rows as they were, and returns `NotFound` exactly when no row has the id.
`ProcessOrder` tests the status once, at its load: when the load finds a "created" order, the
store calls meet no driver fault and nothing else writes the store meanwhile, the stored order
is then at "processing" if the sleep returns an error and at "completed" if it does not. -/
theorem UpdateStatus_conditional_on_row_only {B : Type} (queue : Enqueuer B) (delay : Nat)
    (sleep : Ctx → Nat → Option Err) (ctx : Ctx) (id : String) (db : DB) (q : B) (o : Order)
    (calls : List Call) :
    (∀ status, db.faults db.tick = none →
      PostgresOrderRepository.UpdateStatus ctx id status db =
        (if db.rows.any (fun x => x.ID == id) then none
          else some (.wrap ("order id=" ++ id) ErrNotFound),
          ⟨db.rows.map (fun x => if x.ID == id then { x with Status := status } else x),
            db.tick + 1, db.faults⟩)) ∧
    (db.rows.find? (fun x => x.ID == id) = some o → o.Status = StatusCreated →
      (∀ k < 3, db.faults (db.tick + k) = none) →
      ((OrderService.wire NewPostgresOrderRepository queue delay sleep).traced.ProcessOrder
          ctx id ((db, q), calls)).2.1.1.rows.find? (fun x => x.ID == id) =
        some { o with
          Status := if (sleep ctx delay).isSome then StatusProcessing else StatusCompleted }) := by
  refine ⟨?_, ?_⟩
  · intro status hf
    unfold PostgresOrderRepository.UpdateStatus
    simp only [DB.fault, hf, DB.next]
    cases hany : db.rows.any (fun x => x.ID == id) with
    | false =>
      have h0 := (pg_rowsAffected_eq_zero id db.rows).mpr hany
      simp [h0, PostgresOrderRepository.setStatus]
    | true =>
      have h0 : PostgresOrderRepository.rowsAffected id db.rows ≠ 0 := by
        intro h
        rw [(pg_rowsAffected_eq_zero id db.rows).mp h] at hany
        exact Bool.noConfusion hany
      simp [h0, PostgresOrderRepository.setStatus]
  · intro hfind hstatus hok
    have h0 : db.faults db.tick = none := by simpa using hok 0 (by omega)
    have h1 : db.faults (db.tick + 1) = none := hok 1 (by omega)
    cases hs : sleep ctx delay with
    | none =>
      rw [(pg_ProcessOrder_run queue delay sleep ctx id db q o calls hfind hstatus hok hs).1]
      exact (pg_ProcessOrder_run queue delay sleep ctx id db q o calls hfind hstatus hok hs).2
    | some e =>
      have hload := pg_GetByID_found ctx id db o h0 hfind
      have hupd := pg_UpdateStatus_found ctx id StatusProcessing (db.next db.rows) o
        (by simpa [DB.next] using h1) (by simpa [DB.next] using hfind)
      rw [ProcessOrder_created_unfold queue delay sleep ctx id db q o calls
        (by rw [hload]) hstatus (by rw [hupd]), hs]
      have hf := pg_find?_setStatus id StatusProcessing db.rows
      rw [hfind] at hf
      simpa using hf

theorem UpdateStatus_conditional_on_row_only_witness :
    PostgresOrderRepository.UpdateStatus none "zz" "processing"
        (DB.ofRows [aliceOrder, bobOrder]) =
      (some (.wrap "order id=zz" ErrNotFound), ⟨[aliceOrder, bobOrder], 1, fun _ => none⟩) ∧
    ((mainService true 300 (sleepWithContext true)).traced.ProcessOrder (some Canceled) "a1"
        ((DB.ofRows [aliceOrder, bobOrder], fullQueue), [])).2.1.1.rows.find?
          (fun x => x.ID == "a1") = some { aliceOrder with Status := "processing" } :=
  ⟨(UpdateStatus_conditional_on_row_only fakeEnqueuer 0 (fun _ _ => none) none "zz"
      (DB.ofRows [aliceOrder, bobOrder]) [] aliceOrder []).1 "processing" rfl,
    (UpdateStatus_conditional_on_row_only (ChannelEnqueuer.toEnqueuer true) 300 (sleepWithContext true)
      (some Canceled) "a1" (DB.ofRows [aliceOrder, bobOrder]) fullQueue aliceOrder []).2
      rfl rfl (fun _ _ => rfl)⟩

/-- C3 fails as stated: an update to "processing" takes effect on a row whose stored status
is "completed", and an update to "completed" on a row whose stored status is "created"; and
when another actor completes the order between the load of `ProcessOrder` and its first
update, that update takes the order back from "completed" to "processing", where a cancelled
sleep leaves it. -/
theorem UpdateStatus_unconditional_counterexample :
    bobOrder.Status = "completed" ∧
    PostgresOrderRepository.UpdateStatus none "b2" "processing" (DB.ofRows [bobOrder]) =
      (none, ⟨[{ bobOrder with Status := "processing" }], 1, fun _ => none⟩) ∧
    aliceOrder.Status = "created" ∧
    PostgresOrderRepository.UpdateStatus none "a1" "completed" (DB.ofRows [aliceOrder]) =
      (none, ⟨[{ aliceOrder with Status := "completed" }], 1, fun _ => none⟩) ∧
    (secondActor (⟨[aliceOrder], 1, fun _ => none⟩, [])).1.rows =
      [{ aliceOrder with Status := "completed" }] ∧
    (racingService.ProcessOrder none "a1" (DB.ofRows [aliceOrder], [])).2.1.rows =
      [{ aliceOrder with Status := "processing" }] :=
  ⟨rfl, rfl, rfl, rfl, rfl, rfl⟩

/-- C8: for every list of ids held in a closed queue, a context that is not cancelled, and
every processor, whichever of its calls return errors, `Run` invokes `ProcessOrder` once on
each queued id, in queue order, logs one line for each call that returned an error and goes
on, and then returns with the queue empty, its last line being `worker_stopped` with reason
`queue_closed`; `Run` has no error to return. -/
theorem Run_closed_queue_drains_fifo {W : Type} (p : Processor W) (pickDone : Nat → Bool)
    (i : Nat) (ids : List String) (st : WorkerState W) :
    OrderWorker.Run p none true pickDone i ids st =
      .returned
        { world := processAll p none ids st.world
          logs := st.logs ++ failureLines p none ids st.world ++
            [.worker_stopped .queue_closed]
          invoked := st.invoked ++ ids } [] := by
  induction ids generalizing i st with
  | nil => simp [OrderWorker.Run, processAll, failureLines]
  | cons id rest ih =>
    rw [OrderWorker.Run]
    simp only [Option.isSome_none, Bool.false_and, Bool.false_eq_true, if_false]
    rw [ih]
    cases hr : (p.ProcessOrder none id st.world).1 with
    | none => simp [processAll, failureLines, hr]
    | some e => simp [processAll, failureLines, hr]

/-- C9 (as the code has it): in a state of the loop in which the context is already
cancelled, the iteration stops with reason `context_canceled`, invoking `ProcessOrder` no more
and leaving the queue as it is, whenever its `select` takes the cancellation case, as it must
when the queue is empty and open; and once the context is cancelled `Run` always returns. -/
theorem Run_cancelled_stops {W : Type} (p : Processor W) (cause : Err) (closed : Bool)
    (pickDone : Nat → Bool) (i : Nat) (ids : List String) (st : WorkerState W) :
    ((ids = [] ∧ closed = false) ∨ pickDone i = true →
      OrderWorker.Run p (some cause) closed pickDone i ids st =
        .returned { st with logs := st.logs ++ [.worker_stopped .context_canceled] } ids) ∧
    (∃ st1 rest, OrderWorker.Run p (some cause) closed pickDone i ids st =
      .returned st1 rest) := by
  refine ⟨?_, ?_⟩
  · intro h
    cases ids with
    | nil =>
      rcases h with ⟨_, hc⟩ | hp
      · simp [OrderWorker.Run, hc]
      · simp [OrderWorker.Run, hp]
    | cons id rest =>
      rcases h with ⟨hnil, _⟩ | hp
      · exact absurd hnil (List.cons_ne_nil _ _)
      · rw [OrderWorker.Run]
        simp [hp]
  · induction ids generalizing i st with
    | nil =>
      by_cases hq : (closed && !pickDone i) = true
      · refine ⟨{ st with logs := st.logs ++ [.worker_stopped .queue_closed] }, [], ?_⟩
        simp only [OrderWorker.Run, Option.isSome_some, if_true, hq]
      · refine ⟨{ st with logs := st.logs ++ [.worker_stopped .context_canceled] }, [], ?_⟩
        simp only [OrderWorker.Run, Option.isSome_some, if_true, hq]
        rfl
    | cons id rest ih =>
      by_cases hp : pickDone i = true
      · refine ⟨{ st with logs := st.logs ++ [.worker_stopped .context_canceled] },
          id :: rest, ?_⟩
        rw [OrderWorker.Run]
        simp only [Option.isSome_some, hp, Bool.and_self, if_true]
      · rw [OrderWorker.Run]
        simp only [Option.isSome_some, Bool.true_and, hp, if_false]
        exact ih _ _

theorem Run_cancelled_stops_witness :
    OrderWorker.Run testService.toProcessor (some Canceled) true (fun _ => true) 0 ["a1", "b2"]
        ⟨(DB.ofRows [aliceOrder, bobOrder], []), [], []⟩ =
      .returned ⟨(DB.ofRows [aliceOrder, bobOrder], []),
        [.worker_stopped .context_canceled], []⟩ ["a1", "b2"] :=
  (Run_cancelled_stops testService.toProcessor Canceled true (fun _ => true) 0 ["a1", "b2"]
    ⟨(DB.ofRows [aliceOrder, bobOrder], []), [], []⟩).1 (Or.inr rfl)

/-- C9 fails as stated: with the context already cancelled and an id pending in the queue,
the `select` may take the receive; `Run` then dequeues the id and invokes `ProcessOrder` on
it (here the call fails on the cancelled store and is logged) before it stops. -/
theorem Run_cancelled_counterexample :
    OrderWorker.Run testService.toProcessor (some Canceled) false (fun _ => false) 0 ["a1"]
        ⟨(canceledDB, []), [], []⟩ =
      .returned ⟨(⟨[aliceOrder], 1, fun _ => some (.exec Canceled)⟩, []),
        [.worker_process_failed "a1"
            (.wrap "load order before processing id=a1" (.wrap "get order id=a1" Canceled)),
          .worker_stopped .context_canceled],
        ["a1"]⟩ [] :=
  rfl

/-- C11: over the SQL store, for limit = 10 and offset = 0 and for every other limit and
offset, a `ListOrders` that succeeds returns a total that is greater than or equal to the
length of the page it returns, and a page of at most `limit` orders; and this still holds
when, between the page read and the count, other actors make any repository calls on the
store, as the two reads are separate and no call removes a row. -/
theorem ListOrders_total_ge_page_length {B : Type} (queue : Enqueuer B) (delay : Nat)
    (sleep : Ctx → Nat → Option Err) (ctx : Ctx) (limit offset : Int) (db : DB) (q : B) :
    (∀ orders total w,
      (OrderService.wire NewPostgresOrderRepository queue delay sleep).ListOrders ctx limit
          offset (db, q) = ((orders, total, none), w) →
        (orders.length : Int) ≤ total ∧ (orders.length : Int) ≤ limit) ∧
    (∀ others orders total w,
      (OrderService.wire (NewPostgresOrderRepository.raceAfterList (othersAct others)) queue
          delay sleep).ListOrders ctx limit offset (db, q) = ((orders, total, none), w) →
        (orders.length : Int) ≤ total ∧ (orders.length : Int) ≤ limit) := by
  refine ⟨?_, ?_⟩
  · intro orders total w h
    exact pg_ListOrders_page_le id (fun _ => le_refl _) queue delay sleep ctx limit offset db q
      orders total w h
  · intro others orders total w h
    exact pg_ListOrders_page_le (othersAct others) (pg_othersAct_length others) queue delay
      sleep ctx limit offset db q orders total w h

theorem ListOrders_total_ge_page_length_witness :
    (testService.ListOrders none 10 0 (DB.ofRows [aliceOrder, bobOrder], []) =
        (([bobOrder, aliceOrder], 2, none), (⟨[aliceOrder, bobOrder], 2, fun _ => none⟩, [])) ∧
      (([bobOrder, aliceOrder].length : Int) ≤ 2 ∧ ([bobOrder, aliceOrder].length : Int) ≤ 10)) ∧
    ((OrderService.wire (NewPostgresOrderRepository.raceAfterList
          (othersAct [Call.Create carolOrder])) fakeEnqueuer 0 (fun _ _ => none)).ListOrders
          none 1 1 (DB.ofRows [aliceOrder, bobOrder], []) =
        (([aliceOrder], 3, none),
          (⟨[aliceOrder, bobOrder, carolOrder], 3, fun _ => none⟩, [])) ∧
      (([aliceOrder].length : Int) ≤ 3 ∧ ([aliceOrder].length : Int) ≤ 1)) :=
  ⟨⟨rfl, (ListOrders_total_ge_page_length fakeEnqueuer 0 (fun _ _ => none) none 10 0
      (DB.ofRows [aliceOrder, bobOrder]) []).1 [bobOrder, aliceOrder] 2
      (⟨[aliceOrder, bobOrder], 2, fun _ => none⟩, []) rfl⟩,
    ⟨rfl, (ListOrders_total_ge_page_length fakeEnqueuer 0 (fun _ _ => none) none 1 1
      (DB.ofRows [aliceOrder, bobOrder]) []).2 [Call.Create carolOrder] [aliceOrder] 3
      (⟨[aliceOrder, bobOrder, carolOrder], 3, fun _ => none⟩, []) rfl⟩⟩

end OrdersApi
